import Mathlib

/-!
Verification of the zenmanage-javascript SDK core: the rule-matching engine
(`src/rule-engine.ts`), the flag value accessors (`src/flag.ts`), the flag
manager (`src/flag-manager.ts`) and the volatile in-memory cache
(`src/cache/memory-cache.ts`), shallowly embedded in Lean.

Modelling conventions:
* JavaScript numbers are modelled as `Rat`; `NaN` is modelled as `none` in
  `Option Rat` wherever a JS operation can produce it (`parseFloat`,
  `Number(string)`).
* Operations whose exact result depends on IEEE-754 float parsing/printing
  (`parseFloat`, `Number(string)`, `String(number)`) are abstract parameters:
  `RuleEngine` carries its `parseFloat`, and the flag accessors receive a
  `JSPrimOps` record.  All theorems hold for every choice of these functions.
* JS `Map` objects and plain objects are modelled as insertion-ordered
  association lists (`List (String × _)`); `Map.get`/property access is
  `List.lookup` (first binding wins), matching a `Map`'s unique keys.
* `async` methods are pure functions; promise rejection is `Except`.
-/

namespace Zenmanage

/-- A JavaScript primitive value as it occurs in flag value envelopes:
a boolean, a string, or a number (modelled as `Rat`). -/
inductive Prim where
  | b (x : Bool)
  | s (x : String)
  | n (x : Rat)
deriving DecidableEq

/-- Type `FlagValue = boolean | string | number` from `src/types.ts`. -/
abbrev FlagValue := Prim

/-- Abstract float-dependent JS primitives.  `none` encodes `NaN` for the
string-to-number conversions. -/
structure JSPrimOps where
  numToString : Rat → String
  stringToNumber : String → Option Rat
  parseFloat : String → Option Rat

/-- JS `Boolean(p)` truthiness of a primitive.  (`NaN` never occurs here:
envelope numbers come from JSON, which has no `NaN`.) -/
def jsBool : Prim → Bool
  | .b x => x
  | .s x => x ≠ ""
  | .n x => x ≠ 0

/-- JS `String(p)` conversion of a primitive. -/
def jsString (ops : JSPrimOps) : Prim → String
  | .b true => "true"
  | .b false => "false"
  | .s x => x
  | .n x => ops.numToString x

/-- JS `Number(p)` conversion of a primitive; `none` encodes `NaN`. -/
def jsNumber (ops : JSPrimOps) : Prim → Option Rat
  | .b true => some 1
  | .b false => some 0
  | .s x => ops.stringToNumber x
  | .n x => some x

/-- The union-shaped value envelope `{boolean?, string?, number?}` of
`src/types.ts`, kept as an insertion-ordered object so the
`Object.values(value)[0]` fallback of `src/flag.ts` is expressible. -/
abbrev ValueEnvelope := List (String × Prim)

/-- JS `Object.values(value)[0]` on an envelope: the first property value in
insertion order, or `undefined` (`none`) when the object is empty. -/
def firstValue (env : ValueEnvelope) : Option Prim :=
  (env.head?).map (·.2)

/-- The `{version?, value: {...}}` wrapper used by both rule values and flag
targets (`src/types.ts`). -/
structure ValueBox where
  version : Option String
  value : ValueEnvelope
deriving DecidableEq

/-- Structure `FlagTarget` from `src/types.ts`.  The `string | null` timestamps are
collapsed to `Option String` (`none` for both `undefined` and `null`); the
claims only move them around unchanged. -/
structure FlagTarget where
  version : Option String
  expired_at : Option String
  published_at : Option String
  scheduled_at : Option String
  value : ValueBox
deriving DecidableEq

/-- Type `FlagType = 'boolean' | 'string' | 'number'`. -/
inductive FlagType where
  | boolean
  | string
  | number
deriving DecidableEq

/-- A clause value `string | string[]` (`RuleCondition.value` when present). -/
inductive ClauseValue where
  | str (x : String)
  | arr (xs : List String)
deriving DecidableEq

/-- Structure `RuleCondition` from `src/types.ts`.  The source field named
`attribute` is called `attr` here (`attribute` is a Lean keyword). -/
structure RuleCondition where
  attr : String
  operator : String
  value : Option ClauseValue
deriving DecidableEq

/-- Structure `Rule` from `src/types.ts` (the fields the engine reads, plus `value`). -/
structure Rule where
  version : Option String
  description : Option String
  criteria : Option RuleCondition
  clauses : Option (List RuleCondition)
  position : Option Nat
  value : ValueBox
deriving DecidableEq

/-- The evaluation context of `src/context.ts`.  An `Attribute` object is
represented by its `getValues()` list, so `attributes` maps attribute key to
value list.  A present attribute object is always truthy in JS, even with an
empty value list, so presence is exactly membership in the map. -/
structure Context where
  type : String
  name : Option String
  identifier : Option String
  attributes : List (String × List String)
deriving DecidableEq

/-- Method `Context.getAttribute(key)`, returning the attribute's values. -/
def Context.getAttribute (ctx : Context) (key : String) : Option (List String) :=
  ctx.attributes.lookup key

/-- The rule engine of `src/rule-engine.ts`.  It carries the abstract
`parseFloat` it uses for the numeric operators; `none` encodes `NaN`. -/
structure RuleEngine where
  parseFloat : String → Option Rat

namespace RuleEngine

/-- JS `Array.isArray(clauseValue) ? clauseValue[0] : clauseValue`: the single
target used by every operator except `in`/`not_in`.  `none` is JS
`undefined` (an empty array's element 0). -/
def singleTarget : ClauseValue → Option String
  | .str x => some x
  | .arr xs => xs.head?

/-- Does `hay` contain `needle` as a contiguous run, scanning left to right. -/
def charsInclude (needle : List Char) : List Char → Bool
  | [] => needle.isEmpty
  | c :: rest => needle.isPrefixOf (c :: rest) || charsInclude needle rest

/-- JS `v.includes(t)` on strings: substring containment (char-exact model of
the UTF-16 search). -/
def strIncludes (v t : String) : Bool :=
  charsInclude t.toList v.toList

def evaluateEquals (values : List String) (clauseValue : Option ClauseValue) : Bool :=
  match clauseValue with
  | none => false
  | some cv =>
    match singleTarget cv with
    | some target => values.any (· == target)
    | none => false

def evaluateContains (values : List String) (clauseValue : Option ClauseValue) : Bool :=
  match clauseValue with
  | none => false
  | some cv =>
    let target := (singleTarget cv).getD "undefined"
    values.any (fun v => strIncludes v target)

def evaluateIn (values : List String) (clauseValue : Option ClauseValue) : Bool :=
  match clauseValue with
  | none => false
  | some cv =>
    let targets := match cv with
      | .arr xs => xs
      | .str x => [x]
    values.any (fun v => targets.contains v)

def evaluateStartsWith (values : List String) (clauseValue : Option ClauseValue) : Bool :=
  match clauseValue with
  | none => false
  | some cv =>
    let target := (singleTarget cv).getD "undefined"
    values.any (fun v => v.startsWith target)

def evaluateEndsWith (values : List String) (clauseValue : Option ClauseValue) : Bool :=
  match clauseValue with
  | none => false
  | some cv =>
    let target := (singleTarget cv).getD "undefined"
    values.any (fun v => v.endsWith target)

def evaluateGreaterThan (e : RuleEngine) (values : List String)
    (clauseValue : Option ClauseValue) : Bool :=
  match clauseValue with
  | none => false
  | some cv =>
    match e.parseFloat ((singleTarget cv).getD "undefined") with
    | none => false
    | some targetNum =>
      values.any (fun v =>
        match e.parseFloat v with
        | none => false
        | some num => num > targetNum)

def evaluateGreaterThanOrEqual (e : RuleEngine) (values : List String)
    (clauseValue : Option ClauseValue) : Bool :=
  match clauseValue with
  | none => false
  | some cv =>
    match e.parseFloat ((singleTarget cv).getD "undefined") with
    | none => false
    | some targetNum =>
      values.any (fun v =>
        match e.parseFloat v with
        | none => false
        | some num => num ≥ targetNum)

def evaluateLessThan (e : RuleEngine) (values : List String)
    (clauseValue : Option ClauseValue) : Bool :=
  match clauseValue with
  | none => false
  | some cv =>
    match e.parseFloat ((singleTarget cv).getD "undefined") with
    | none => false
    | some targetNum =>
      values.any (fun v =>
        match e.parseFloat v with
        | none => false
        | some num => num < targetNum)

def evaluateLessThanOrEqual (e : RuleEngine) (values : List String)
    (clauseValue : Option ClauseValue) : Bool :=
  match clauseValue with
  | none => false
  | some cv =>
    match e.parseFloat ((singleTarget cv).getD "undefined") with
    | none => false
    | some targetNum =>
      values.any (fun v =>
        match e.parseFloat v with
        | none => false
        | some num => num ≤ targetNum)

/-- Method `evaluateClause`: look up the attribute (absent means no match), then
dispatch on the operator string exactly as the source `switch` does. -/
def evaluateClause (e : RuleEngine) (clause : RuleCondition) (context : Context) : Bool :=
  match context.getAttribute clause.attr with
  | none => false
  | some attributeValues =>
    match clause.operator with
    | "equals" => evaluateEquals attributeValues clause.value
    | "not_equals" => !evaluateEquals attributeValues clause.value
    | "contains" => evaluateContains attributeValues clause.value
    | "not_contains" => !evaluateContains attributeValues clause.value
    | "in" => evaluateIn attributeValues clause.value
    | "not_in" => !evaluateIn attributeValues clause.value
    | "starts_with" => evaluateStartsWith attributeValues clause.value
    | "ends_with" => evaluateEndsWith attributeValues clause.value
    | "gt" => evaluateGreaterThan e attributeValues clause.value
    | "gte" => evaluateGreaterThanOrEqual e attributeValues clause.value
    | "lt" => evaluateLessThan e attributeValues clause.value
    | "lte" => evaluateLessThanOrEqual e attributeValues clause.value
    | _ => false

/-- Method `evaluateRule`: a non-empty `clauses` array is an AND of all clauses;
otherwise a present `criteria` is the single condition; otherwise true. -/
def evaluateRule (e : RuleEngine) (rule : Rule) (context : Context) : Bool :=
  match rule.clauses with
  | some (c :: cs) => (c :: cs).all (fun clause => evaluateClause e clause context)
  | _ =>
    match rule.criteria with
    | some criteria => evaluateClause e criteria context
    | none => true

/-- Method `evaluate`: scan the rules in order, first match wins, `null` if none. -/
def evaluate (e : RuleEngine) (rules : List Rule) (context : Context) : Option Rule :=
  match rules with
  | [] => none
  | rule :: rest =>
    if evaluateRule e rule context then some rule else evaluate e rest context

end RuleEngine

/-- A feature flag (`src/flag.ts`). -/
structure Flag where
  version : String
  type : FlagType
  key : String
  name : String
  target : FlagTarget
  rules : List Rule
deriving DecidableEq

namespace Flag

/-- Method `isEnabled()`: only boolean-typed flags can be enabled; a boolean-typed
flag without a `boolean` key falls back to `Boolean(value)`, and `value` is
a JS object, which is always truthy. -/
def isEnabled (f : Flag) : Bool :=
  if f.type ≠ FlagType.boolean then
    false
  else
    match f.target.value.value.lookup "boolean" with
    | some p => jsBool p
    | none => true

/-- Method `asBool()`: `boolean`, then `number`, then `string`, then
`Boolean(Object.values(value)[0])` (`Boolean(undefined)` is `false`). -/
def asBool (f : Flag) : Bool :=
  let value := f.target.value.value
  match value.lookup "boolean" with
  | some p => jsBool p
  | none =>
    match value.lookup "number" with
    | some p => jsBool p
    | none =>
      match value.lookup "string" with
      | some p => jsBool p
      | none => ((firstValue value).map jsBool).getD false

/-- Method `asString()`: `string`, then `boolean`, then `number`, then
`String(Object.values(value)[0])`, or `''` for an empty envelope. -/
def asString (ops : JSPrimOps) (f : Flag) : String :=
  let value := f.target.value.value
  match value.lookup "string" with
  | some p => jsString ops p
  | none =>
    match value.lookup "boolean" with
    | some p => jsString ops p
    | none =>
      match value.lookup "number" with
      | some p => jsString ops p
      | none =>
        match firstValue value with
        | some p => jsString ops p
        | none => ""

/-- Method `asNumber()`: `number` (raw `Number(value.number)`), then `string`
(`parseFloat` with `NaN ↦ 0`), then `boolean` (truthiness to `1`/`0`), then
the parse-the-first-value fallback.  The result is `Option Rat` because the
raw `Number(value.number)` branch can be `NaN` on an ill-typed envelope. -/
def asNumber (ops : JSPrimOps) (f : Flag) : Option Rat :=
  let value := f.target.value.value
  match value.lookup "number" with
  | some p => jsNumber ops p
  | none =>
    match value.lookup "string" with
    | some p => some ((ops.parseFloat (jsString ops p)).getD 0)
    | none =>
      match value.lookup "boolean" with
      | some p => some (if jsBool p then 1 else 0)
      | none =>
        match firstValue value with
        | some p => some ((ops.parseFloat (jsString ops p)).getD 0)
        | none => some 0

/-- Method `getValue()`: the raw value under `boolean`, then `string`, then
`number`, then the first value found, or `''`. -/
def getValue (f : Flag) : FlagValue :=
  let value := f.target.value.value
  match value.lookup "boolean" with
  | some p => p
  | none =>
    match value.lookup "string" with
    | some p => p
    | none =>
      match value.lookup "number" with
      | some p => p
      | none => (firstValue value).getD (.s "")

end Flag

/-- Structure `FlagData` from `src/types.ts` — the raw API shape of a flag. -/
structure FlagData where
  version : String
  type : FlagType
  key : String
  name : String
  target : FlagTarget
  rules : Option (List Rule)
deriving DecidableEq

/-- Constructor `Flag.fromObject(data)`: `data.rules || []`. -/
def Flag.fromObject (data : FlagData) : Flag :=
  ⟨data.version, data.type, data.key, data.name, data.target, data.rules.getD []⟩

/-- The API rule-set document `{version, flags}`. -/
structure RulesResponse where
  version : String
  flags : List FlagData
deriving DecidableEq

/-! ### In-memory cache (`src/cache/memory-cache.ts`)

Time is explicit: `Date.now()` becomes a `now : Rat` argument (milliseconds;
a rational so that fractional TTL seconds stay exact).  The backing `Map` is
an association list with `Map.set` replacing in place. -/

/-- One stored cache item: `{value, expires}` with `expires : number | null`. -/
structure CacheEntry where
  value : String
  expires : Option Rat
deriving DecidableEq

/-- The cache's backing `Map<string, CacheEntry>`. -/
abbrev CacheState := List (String × CacheEntry)

namespace InMemoryCache

/-- JS `Map.set`: replace the existing binding in place, else append. -/
def mapSet (k : String) (e : CacheEntry) : CacheState → CacheState
  | [] => [(k, e)]
  | (k', e') :: rest =>
    if k' = k then (k, e) :: rest else (k', e') :: mapSet k e rest

/-- JS `Map.delete`. -/
def mapDelete (k : String) (st : CacheState) : CacheState :=
  st.filter (fun p => p.1 ≠ k)

/-- Method `get(key)` at time `now`: returns the value and the possibly-shrunk
store.  An entry with an expiry strictly in the past is deleted and reported
absent; expiry is only ever checked here (lazily, on read). -/
def get (st : CacheState) (key : String) (now : Rat) : Option String × CacheState :=
  match st.lookup key with
  | none => (none, st)
  | some item =>
    match item.expires with
    | some t => if t < now then (none, mapDelete key st) else (some item.value, st)
    | none => (some item.value, st)

/-- Method `set(key, value, ttl?)` at time `now`: `expires` is `now + ttl * 1000`
when a ttl (in seconds) is given, else `null`. -/
def set (st : CacheState) (key value : String) (ttl : Option Rat) (now : Rat) : CacheState :=
  mapSet key ⟨value, ttl.map (fun t => now + t * 1000)⟩ st

/-- Method `has(key)`: delegates to `get`, so it inherits the lazy eviction. -/
def has (st : CacheState) (key : String) (now : Rat) : Bool × CacheState :=
  let r := get st key now
  (r.1.isSome, r.2)

end InMemoryCache

/-! ### Flag manager (`src/flag-manager.ts`) -/

/-- The fixed cache key `CACHE_KEY`. -/
def CACHE_KEY : String := "zenmanage_rules"

/-- A `DefaultsCollection` (`src/defaults-collection.ts`): a `Map` from flag
key to default value; `has`/`get` are both `lookup` (a stored `FlagValue` is
never `undefined`). -/
abbrev DefaultsCollection := List (String × FlagValue)

/-- The flag manager's state: `flags` is `null` (`none`) before the first
load and is replaced wholesale afterwards. -/
structure FlagManager where
  flags : Option (List Flag)
  context : Context
  defaults : DefaultsCollection
  ruleEngine : RuleEngine
  cacheTtl : Rat

/-- A `cache.set(key, value, ttl)` call emitted by the manager. -/
structure CacheWrite where
  key : String
  value : String
  ttl : Option Rat

namespace FlagManager

/-- Method `evaluateFlag(flag)`: no rules means the flag is returned as-is; a
matched rule yields a new `Flag` with the rule's value spliced into the
target (other target metadata inherited); no match returns the original. -/
def evaluateFlag (m : FlagManager) (flag : Flag) : Flag :=
  let rules := flag.rules
  if rules.length = 0 then
    flag
  else
    match m.ruleEngine.evaluate rules m.context with
    | some matchedRule =>
      let newTarget : FlagTarget :=
        ⟨flag.target.version, flag.target.expired_at, flag.target.published_at,
          flag.target.scheduled_at, matchedRule.value⟩
      ⟨flag.version, flag.type, flag.key, flag.name, newTarget, rules⟩
    | none => flag

/-- Method `createFlagFromDefault(key, defaultValue)`: dispatch on `typeof` —
boolean, number, else string (`String` of a string is itself). -/
def createFlagFromDefault (key : String) (defaultValue : FlagValue) : Flag :=
  match defaultValue with
  | .b x =>
    ⟨"1", FlagType.boolean, key, key, ⟨none, none, none, none, ⟨none, [("boolean", .b x)]⟩⟩, []⟩
  | .n x =>
    ⟨"1", FlagType.number, key, key, ⟨none, none, none, none, ⟨none, [("number", .n x)]⟩⟩, []⟩
  | .s x =>
    ⟨"1", FlagType.string, key, key, ⟨none, none, none, none, ⟨none, [("string", .s x)]⟩⟩, []⟩

/-- Method `single(key, defaultValue?)` after rules are loaded: scan the loaded
flags (`this.flags || []`) for the key; otherwise the inline default, then
the `DefaultsCollection`, then an `EvaluationError` (modelled as the error
message). -/
def single (m : FlagManager) (key : String) (defaultValue : Option FlagValue) :
    Except String Flag :=
  match (m.flags.getD []).find? (fun flag => flag.key == key) with
  | some flag => .ok (m.evaluateFlag flag)
  | none =>
    match defaultValue with
    | some dv => .ok (createFlagFromDefault key dv)
    | none =>
      match m.defaults.lookup key with
      | some dv => .ok (createFlagFromDefault key dv)
      | none => .error ("Flag not found: " ++ key)

/-- Method `loadRulesFromApi()`: the remote fetch is the `fetchResult` argument
(`Except ε` models promise rejection) and `stringify` abstracts
`JSON.stringify`.  Returns the updated manager, the cache write performed
(if any), and the outcome passed to the caller. -/
def loadRulesFromApi {ε : Type} (m : FlagManager) (stringify : RulesResponse → String)
    (fetchResult : Except ε RulesResponse) :
    FlagManager × Option CacheWrite × Except ε Unit :=
  match fetchResult with
  | .ok response =>
    ({ m with flags := some (response.flags.map Flag.fromObject) },
      some ⟨CACHE_KEY, stringify response, some m.cacheTtl⟩,
      .ok ())
  | .error err =>
    ({ m with flags := some [] }, none, .error err)

end FlagManager

/-! ## Theorems -/

/-- C2: a clause whose attribute is absent from the context never matches,
whatever the operator; and with the attribute present, the `not_` operators
are the exact boolean negation of their positive counterparts. -/
theorem clause_absent_attribute_and_negation (e : RuleEngine) (ctx : Context) :
    (∀ clause : RuleCondition, ctx.getAttribute clause.attr = none →
        RuleEngine.evaluateClause e clause ctx = false) ∧
    (∀ a v vals, ctx.getAttribute a = some vals →
        RuleEngine.evaluateClause e ⟨a, "not_equals", v⟩ ctx
          = !RuleEngine.evaluateClause e ⟨a, "equals", v⟩ ctx ∧
        RuleEngine.evaluateClause e ⟨a, "not_contains", v⟩ ctx
          = !RuleEngine.evaluateClause e ⟨a, "contains", v⟩ ctx ∧
        RuleEngine.evaluateClause e ⟨a, "not_in", v⟩ ctx
          = !RuleEngine.evaluateClause e ⟨a, "in", v⟩ ctx) := by
  constructor
  · intro clause h
    simp [RuleEngine.evaluateClause, h]
  · intro a v vals h
    refine ⟨?_, ?_, ?_⟩ <;> simp [RuleEngine.evaluateClause, h]

/-- Witness for C2 at a concrete clause and context. -/
theorem clause_absent_attribute_and_negation_witness :
    RuleEngine.evaluateClause ⟨fun _ => none⟩
      ⟨"country", "not_equals", some (.str "US")⟩
      ⟨"user", none, none, []⟩ = false := by
  have h := (clause_absent_attribute_and_negation ⟨fun _ => none⟩
      ⟨"user", none, none, []⟩).1
      ⟨"country", "not_equals", some (.str "US")⟩ rfl
  exact h

/-- C10: with the attribute present, an `undefined` clause value makes every
positive operator fail and every negated operator succeed, since the
negation is applied after the attribute-presence check. -/
theorem undefined_clause_value_positive_negative (e : RuleEngine) (a : String)
    (vals : List String) (ctx : Context) (h : ctx.getAttribute a = some vals) :
    RuleEngine.evaluateClause e ⟨a, "equals", none⟩ ctx = false ∧
    RuleEngine.evaluateClause e ⟨a, "contains", none⟩ ctx = false ∧
    RuleEngine.evaluateClause e ⟨a, "in", none⟩ ctx = false ∧
    RuleEngine.evaluateClause e ⟨a, "starts_with", none⟩ ctx = false ∧
    RuleEngine.evaluateClause e ⟨a, "ends_with", none⟩ ctx = false ∧
    RuleEngine.evaluateClause e ⟨a, "gt", none⟩ ctx = false ∧
    RuleEngine.evaluateClause e ⟨a, "gte", none⟩ ctx = false ∧
    RuleEngine.evaluateClause e ⟨a, "lt", none⟩ ctx = false ∧
    RuleEngine.evaluateClause e ⟨a, "lte", none⟩ ctx = false ∧
    RuleEngine.evaluateClause e ⟨a, "not_equals", none⟩ ctx = true ∧
    RuleEngine.evaluateClause e ⟨a, "not_contains", none⟩ ctx = true ∧
    RuleEngine.evaluateClause e ⟨a, "not_in", none⟩ ctx = true := by
  refine ⟨?_, ?_, ?_, ?_, ?_, ?_, ?_, ?_, ?_, ?_, ?_, ?_⟩ <;>
    simp [RuleEngine.evaluateClause, h, RuleEngine.evaluateEquals,
      RuleEngine.evaluateContains, RuleEngine.evaluateIn,
      RuleEngine.evaluateStartsWith, RuleEngine.evaluateEndsWith,
      RuleEngine.evaluateGreaterThan, RuleEngine.evaluateGreaterThanOrEqual,
      RuleEngine.evaluateLessThan, RuleEngine.evaluateLessThanOrEqual]

/-- Witness for C10: a concrete context in which the attribute is present. -/
theorem undefined_clause_value_positive_negative_witness :
    RuleEngine.evaluateClause ⟨fun _ => none⟩ ⟨"plan", "equals", none⟩
      ⟨"user", none, none, [("plan", ["pro"])]⟩ = false ∧
    RuleEngine.evaluateClause ⟨fun _ => none⟩ ⟨"plan", "not_in", none⟩
      ⟨"user", none, none, [("plan", ["pro"])]⟩ = true := by
  have h := undefined_clause_value_positive_negative ⟨fun _ => none⟩ "plan"
      ["pro"] ⟨"user", none, none, [("plan", ["pro"])]⟩ rfl
  exact ⟨h.1, h.2.2.2.2.2.2.2.2.2.2.2⟩

/-- C9: a flag whose type is not `boolean` is never enabled, regardless of
its target value. -/
theorem isEnabled_false_for_non_boolean (f : Flag) (h : f.type ≠ FlagType.boolean) :
    f.isEnabled = false := by
  simp [Flag.isEnabled, h]

/-- Witness for C9: a string-typed flag whose `asBool()` is `true` still has
`isEnabled() = false`. -/
theorem isEnabled_false_for_non_boolean_witness :
    Flag.isEnabled ⟨"1", FlagType.string, "k", "k",
        ⟨none, none, none, none, ⟨none, [("string", .s "yes")]⟩⟩, []⟩ = false ∧
    Flag.asBool ⟨"1", FlagType.string, "k", "k",
        ⟨none, none, none, none, ⟨none, [("string", .s "yes")]⟩⟩, []⟩ = true := by
  refine ⟨isEnabled_false_for_non_boolean _ (by decide), by decide⟩

/-- C6: a failed remote fetch leaves the flag list empty (not the unloaded
`none` sentinel) and re-raises the same failure; a successful fetch replaces
the flags wholesale and writes the serialized document to the cache under
the fixed key with the configured TTL. -/
theorem loadRulesFromApi_failure_and_success {ε : Type} (m : FlagManager)
    (stringify : RulesResponse → String) :
    (∀ err : ε, m.loadRulesFromApi stringify (.error err)
        = ({ m with flags := some [] }, none, .error err)) ∧
    (∀ response : RulesResponse,
        m.loadRulesFromApi stringify (.ok response : Except ε RulesResponse)
        = ({ m with flags := some (response.flags.map Flag.fromObject) },
            some ⟨"zenmanage_rules", stringify response, some m.cacheTtl⟩,
            .ok ())) := by
  exact ⟨fun _ => rfl, fun _ => rfl⟩

/-- C4: evaluating a flag with no rules, or with no matching rule, returns
the flag unchanged; a matched rule yields a flag equal to the original
except that `target.value` is the rule's value. -/
theorem evaluateFlag_frame (m : FlagManager) (flag : Flag) :
    (flag.rules = [] → m.evaluateFlag flag = flag) ∧
    (∀ r, m.ruleEngine.evaluate flag.rules m.context = some r →
        m.evaluateFlag flag
          = ⟨flag.version, flag.type, flag.key, flag.name,
              ⟨flag.target.version, flag.target.expired_at,
                flag.target.published_at, flag.target.scheduled_at, r.value⟩,
              flag.rules⟩) ∧
    (m.ruleEngine.evaluate flag.rules m.context = none →
        m.evaluateFlag flag = flag) := by
  refine ⟨?_, ?_, ?_⟩
  · intro h
    simp [FlagManager.evaluateFlag, h]
  · intro r h
    by_cases hr : flag.rules.length = 0
    · rw [List.length_eq_zero] at hr
      rw [hr] at h
      simp [RuleEngine.evaluate] at h
    · simp [FlagManager.evaluateFlag, hr, h]
  · intro h
    by_cases hr : flag.rules.length = 0
    · simp [FlagManager.evaluateFlag, hr]
    · simp [FlagManager.evaluateFlag, hr, h]

/-- Float-free `JSPrimOps` used to instantiate witnesses (no witness below
exercises a number-to-string or string-to-number conversion). -/
def testOps : JSPrimOps :=
  ⟨fun _ => "", fun _ => none, fun _ => none⟩

/-- C3: `single` prefers a loaded flag (evaluated) over both default
sources; otherwise the inline default, even when the Defaults Collection
also has the key; otherwise the Defaults Collection; otherwise it fails
with the flag-not-found evaluation error. -/
theorem single_priority_order (m : FlagManager) (key : String)
    (defaultValue : Option FlagValue) :
    (∀ f, (m.flags.getD []).find? (fun flag => flag.key == key) = some f →
        m.single key defaultValue = .ok (m.evaluateFlag f)) ∧
    ((m.flags.getD []).find? (fun flag => flag.key == key) = none →
      (∀ v, defaultValue = some v →
          m.single key defaultValue = .ok (FlagManager.createFlagFromDefault key v)) ∧
      (defaultValue = none →
        (∀ w, m.defaults.lookup key = some w →
            m.single key defaultValue = .ok (FlagManager.createFlagFromDefault key w)) ∧
        (m.defaults.lookup key = none →
            m.single key defaultValue = .error ("Flag not found: " ++ key)))) := by
  constructor
  · intro f h
    simp [FlagManager.single, h]
  · intro h
    refine ⟨?_, ?_⟩
    · intro v hv
      simp [FlagManager.single, h, hv]
    · intro hv
      refine ⟨?_, ?_⟩
      · intro w hw
        simp [FlagManager.single, h, hv, hw]
      · intro hw
        simp [FlagManager.single, h, hv, hw]

/-- A concrete manager for the C3 witness: nothing loaded, Defaults
Collection `{x: 'B'}`. -/
def testManager : FlagManager :=
  ⟨some [], ⟨"anonymous", none, none, []⟩, [("x", .s "B")], ⟨fun _ => none⟩, 3600⟩

/-- Witness for C3, mirroring the spec's example: with no loaded flag named
`x` and Defaults Collection `{x: 'B'}`, `single('x', 'A')` yields the flag
synthesized from `'A'` (its `asString()` is `'A'`), while `single('x')`
yields the one synthesized from `'B'`. -/
theorem single_priority_order_witness :
    (testManager.single "x" (some (.s "A"))
      = .ok (FlagManager.createFlagFromDefault "x" (.s "A"))) ∧
    Flag.asString testOps (FlagManager.createFlagFromDefault "x" (.s "A")) = "A" ∧
    (testManager.single "x" none
      = .ok (FlagManager.createFlagFromDefault "x" (.s "B"))) ∧
    Flag.asString testOps (FlagManager.createFlagFromDefault "x" (.s "B")) = "B" := by
  refine ⟨?_, by decide, ?_, by decide⟩
  · exact ((single_priority_order testManager "x" (some (.s "A"))).2 rfl).1 (.s "A") rfl
  · exact (((single_priority_order testManager "x" none).2 rfl).2 rfl).1 (.s "B") rfl

/-- Lemma: `Map.set` makes the new binding visible to `Map.get`. -/
theorem lookup_mapSet_self (k : String) (e : CacheEntry) (st : CacheState) :
    (InMemoryCache.mapSet k e st).lookup k = some e := by
  induction st with
  | nil => simp [InMemoryCache.mapSet, List.lookup]
  | cons p rest ih =>
    obtain ⟨k', e'⟩ := p
    by_cases h : k' = k
    · subst h
      simp [InMemoryCache.mapSet, List.lookup]
    · have hne : (k == k') = false := beq_eq_false_iff_ne.mpr (Ne.symm h)
      simp [InMemoryCache.mapSet, h, List.lookup, hne, ih]

/-- C7: `get` at time `now` returns the stored value exactly when the entry
exists and has no expiry or an expiry not in the past; an expired entry is
deleted by that `get` and reported absent; `has` is exactly `get`'s
presence (so expiry is checked lazily on reads); and an entry `set` without
a ttl is still present at every later read. -/
theorem memory_cache_get_set_ttl (st : CacheState) (key : String) (now : Rat) :
    (∀ v, (InMemoryCache.get st key now).1 = some v ↔
        ∃ e, st.lookup key = some e ∧ e.value = v ∧
          (e.expires = none ∨ ∃ t, e.expires = some t ∧ ¬ t < now)) ∧
    (∀ e t, st.lookup key = some e → e.expires = some t → t < now →
        InMemoryCache.get st key now = (none, InMemoryCache.mapDelete key st)) ∧
    ((InMemoryCache.has st key now).1 = (InMemoryCache.get st key now).1.isSome) ∧
    (∀ value now₀ now₁,
        (InMemoryCache.get (InMemoryCache.set st key value none now₀) key now₁).1
          = some value) := by
  refine ⟨?_, ?_, rfl, ?_⟩
  · intro v
    unfold InMemoryCache.get
    cases h : st.lookup key with
    | none => simp
    | some item =>
      cases hx : item.expires with
      | none => simp [h, hx]
      | some t =>
        by_cases ht : t < now
        · simp [h, hx, ht]
        · simp [h, hx, ht]
          exact fun _ => not_lt.mp ht
  · intro e t he ht hlt
    simp [InMemoryCache.get, he, ht, hlt]
  · intro value now₀ now₁
    simp [InMemoryCache.get, InMemoryCache.set, lookup_mapSet_self]

/-- Witness for C7: a fresh entry with a 0.1 s ttl set at t=0 ms is present
at t=50 ms and absent at t=200 ms; an entry set without a ttl is still
present far in the future. -/
theorem memory_cache_get_set_ttl_witness :
    (InMemoryCache.get (InMemoryCache.set [] "k" "v" (some (1/10)) 0) "k" 50).1
      = some "v" ∧
    (InMemoryCache.get (InMemoryCache.set [] "k" "v" (some (1/10)) 0) "k" 200).1
      = none ∧
    (InMemoryCache.get (InMemoryCache.set [] "k" "v" none 0) "k" 999999999).1
      = some "v" := by
  refine ⟨?_, ?_, ?_⟩
  · apply ((memory_cache_get_set_ttl
        (InMemoryCache.set [] "k" "v" (some (1/10)) 0) "k" 50).1 "v").mpr
    refine ⟨⟨"v", some 100⟩, ?_, rfl, Or.inr ⟨100, rfl, by norm_num⟩⟩
    norm_num [InMemoryCache.set, InMemoryCache.mapSet, List.lookup]
  · norm_num [InMemoryCache.set, InMemoryCache.get, InMemoryCache.mapSet,
      InMemoryCache.mapDelete, List.lookup]
  · exact (memory_cache_get_set_ttl [] "k" 0).2.2.2 "v" 0 999999999

/-- The numeric target of a clause, as the claim describes it: the clause
value's single target parsed as a float (`none` when absent or unparsable;
an absent target is coerced to the string `"undefined"` first, as JS
`parseFloat(undefined)` does). -/
def numTarget (e : RuleEngine) (clauseValue : Option ClauseValue) : Option Rat :=
  clauseValue.bind (fun cv => e.parseFloat ((RuleEngine.singleTarget cv).getD "undefined"))

/-- Parse-then-test scanning over a value list, phrased existentially. -/
theorem any_parse_match_iff (e : RuleEngine) (vs : List String) (p : Rat → Bool) :
    (vs.any (fun v =>
      match e.parseFloat v with
      | none => false
      | some num => p num) = true)
      ↔ ∃ v ∈ vs, ∃ n, e.parseFloat v = some n ∧ p n = true := by
  simp only [List.any_eq_true]
  refine exists_congr fun v => and_congr_right fun _ => ?_
  cases hv : e.parseFloat v <;> simp [hv]

/-- C5: each numeric operator matches exactly when the target parses and at
least one attribute value parses and satisfies the comparison; any parse
failure just makes that comparison false. -/
theorem numeric_operators_parse_semantics (e : RuleEngine) (vs : List String)
    (cv : Option ClauseValue) :
    (RuleEngine.evaluateGreaterThan e vs cv = true ↔
      ∃ tn, numTarget e cv = some tn ∧
        ∃ v ∈ vs, ∃ n, e.parseFloat v = some n ∧ tn < n) ∧
    (RuleEngine.evaluateGreaterThanOrEqual e vs cv = true ↔
      ∃ tn, numTarget e cv = some tn ∧
        ∃ v ∈ vs, ∃ n, e.parseFloat v = some n ∧ tn ≤ n) ∧
    (RuleEngine.evaluateLessThan e vs cv = true ↔
      ∃ tn, numTarget e cv = some tn ∧
        ∃ v ∈ vs, ∃ n, e.parseFloat v = some n ∧ n < tn) ∧
    (RuleEngine.evaluateLessThanOrEqual e vs cv = true ↔
      ∃ tn, numTarget e cv = some tn ∧
        ∃ v ∈ vs, ∃ n, e.parseFloat v = some n ∧ n ≤ tn) := by
  refine ⟨?_, ?_, ?_, ?_⟩
  · cases cv with
    | none => simp [RuleEngine.evaluateGreaterThan, numTarget]
    | some c =>
      cases hp : e.parseFloat ((RuleEngine.singleTarget c).getD "undefined") with
      | none => simp [RuleEngine.evaluateGreaterThan, numTarget, hp]
      | some tn =>
        simp only [RuleEngine.evaluateGreaterThan, hp]
        rw [any_parse_match_iff e vs (fun num => decide (num > tn))]
        simp [numTarget, hp]
  · cases cv with
    | none => simp [RuleEngine.evaluateGreaterThanOrEqual, numTarget]
    | some c =>
      cases hp : e.parseFloat ((RuleEngine.singleTarget c).getD "undefined") with
      | none => simp [RuleEngine.evaluateGreaterThanOrEqual, numTarget, hp]
      | some tn =>
        simp only [RuleEngine.evaluateGreaterThanOrEqual, hp]
        rw [any_parse_match_iff e vs (fun num => decide (num ≥ tn))]
        simp [numTarget, hp]
  · cases cv with
    | none => simp [RuleEngine.evaluateLessThan, numTarget]
    | some c =>
      cases hp : e.parseFloat ((RuleEngine.singleTarget c).getD "undefined") with
      | none => simp [RuleEngine.evaluateLessThan, numTarget, hp]
      | some tn =>
        simp only [RuleEngine.evaluateLessThan, hp]
        rw [any_parse_match_iff e vs (fun num => decide (num < tn))]
        simp [numTarget, hp]
  · cases cv with
    | none => simp [RuleEngine.evaluateLessThanOrEqual, numTarget]
    | some c =>
      cases hp : e.parseFloat ((RuleEngine.singleTarget c).getD "undefined") with
      | none => simp [RuleEngine.evaluateLessThanOrEqual, numTarget, hp]
      | some tn =>
        simp only [RuleEngine.evaluateLessThanOrEqual, hp]
        rw [any_parse_match_iff e vs (fun num => decide (num ≤ tn))]
        simp [numTarget, hp]

/-- A concrete engine whose `parseFloat` understands `"1"` and `"2"`. -/
def testEngine : RuleEngine :=
  ⟨fun v => if v = "1" then some 1 else if v = "2" then some 2 else none⟩

/-- Witness for C5: with target `"1"` and values `["abc", "2"]`, `gt`
matches — `"abc"` fails to parse but `"2"` parses and `2 > 1`. -/
theorem numeric_operators_parse_semantics_witness :
    RuleEngine.evaluateGreaterThan testEngine ["abc", "2"] (some (.str "1")) = true := by
  apply (numeric_operators_parse_semantics testEngine ["abc", "2"] (some (.str "1"))).1.mpr
  exact ⟨1, rfl, "2", by simp, 2, rfl, by norm_num⟩

/-- Rule matching as the claim states it: a rule with a non-empty clause
list matches when every clause matches; otherwise a rule with a criteria
matches when that single clause matches; otherwise the rule matches. -/
def specRuleMatches (e : RuleEngine) (rule : Rule) (ctx : Context) : Prop :=
  match rule.clauses with
  | some (c :: cs) => ∀ clause ∈ (c :: cs), RuleEngine.evaluateClause e clause ctx = true
  | _ =>
    match rule.criteria with
    | some criteria => RuleEngine.evaluateClause e criteria ctx = true
    | none => True

/-- The engine's per-rule test agrees with the claim's wording. -/
theorem evaluateRule_eq_true_iff (e : RuleEngine) (rule : Rule) (ctx : Context) :
    RuleEngine.evaluateRule e rule ctx = true ↔ specRuleMatches e rule ctx := by
  cases hc : rule.clauses with
  | none =>
    cases hcr : rule.criteria <;>
      simp [RuleEngine.evaluateRule, specRuleMatches, hc, hcr]
  | some l =>
    cases l with
    | nil =>
      cases hcr : rule.criteria <;>
        simp [RuleEngine.evaluateRule, specRuleMatches, hc, hcr]
    | cons c cs =>
      simp [RuleEngine.evaluateRule, specRuleMatches, hc, List.all_eq_true]

/-- The evaluation loop is `List.find?` over the per-rule test. -/
theorem evaluate_eq_find? (e : RuleEngine) (rules : List Rule) (ctx : Context) :
    RuleEngine.evaluate e rules ctx
      = rules.find? (fun rule => RuleEngine.evaluateRule e rule ctx) := by
  induction rules with
  | nil => rfl
  | cons rule rest ih =>
    by_cases h : RuleEngine.evaluateRule e rule ctx = true
    · simp [RuleEngine.evaluate, h, List.find?_cons_of_pos]
    · simp only [Bool.not_eq_true] at h
      simp [RuleEngine.evaluate, h, List.find?_cons_of_neg, ih]

/-- C1: `evaluate` returns exactly the first rule (in list order) that
matches per `specRuleMatches`, and `none` exactly when no rule matches. -/
theorem evaluate_returns_first_matching_rule (e : RuleEngine) (rules : List Rule)
    (ctx : Context) :
    (∀ rule, RuleEngine.evaluate e rules ctx = some rule ↔
        specRuleMatches e rule ctx ∧
        ∃ before after, rules = before ++ rule :: after ∧
          ∀ r' ∈ before, ¬ specRuleMatches e r' ctx) ∧
    (RuleEngine.evaluate e rules ctx = none ↔
        ∀ rule ∈ rules, ¬ specRuleMatches e rule ctx) := by
  constructor
  · intro rule
    rw [evaluate_eq_find?, List.find?_eq_some]
    simp only [Bool.not_eq_true', ← Bool.not_eq_true, evaluateRule_eq_true_iff]
  · rw [evaluate_eq_find?, List.find?_eq_none]
    simp only [evaluateRule_eq_true_iff]

/-- A condition-free rule for the C1 witness. -/
def testRule : Rule :=
  ⟨none, none, none, none, none, ⟨none, [("boolean", .b true)]⟩⟩

/-- Witness for C1: a one-element rule list whose rule has no conditions
evaluates to that rule. -/
theorem evaluate_returns_first_matching_rule_witness :
    RuleEngine.evaluate testEngine [testRule]
      ⟨"user", none, none, [("plan", ["pro"])]⟩ = some testRule := by
  apply ((evaluate_returns_first_matching_rule testEngine [testRule]
      ⟨"user", none, none, [("plan", ["pro"])]⟩).1 testRule).mpr
  refine ⟨?_, [], [], rfl, by simp⟩
  simp [specRuleMatches, testRule]

/-- A flag carrying one unconditional rule, for the C4 witness. -/
def testFlagWithRule : Flag :=
  ⟨"2", FlagType.boolean, "f", "F",
    ⟨some "tv", some "e", some "p", some "s", ⟨none, [("boolean", .b false)]⟩⟩,
    [testRule]⟩

/-- Witness for C4: evaluating a flag whose single rule matches keeps
everything but splices the rule's value into the target. -/
theorem evaluateFlag_frame_witness :
    testManager.evaluateFlag testFlagWithRule
      = ⟨"2", FlagType.boolean, "f", "F",
          ⟨some "tv", some "e", some "p", some "s", testRule.value⟩,
          [testRule]⟩ :=
  (evaluateFlag_frame testManager testFlagWithRule).2.1 testRule rfl

/-- Inspect an envelope's keys in the listed order, converting the first
hit, then fall back on the first defined property.  The accessor claims are
about which order list each accessor uses. -/
def scanKeys {α : Type} (env : ValueEnvelope) (fallback : Option Prim → α) :
    List (String × (Prim → α)) → α
  | [] => fallback (firstValue env)
  | (k, conv) :: rest =>
    match env.lookup k with
    | some p => conv p
    | none => scanKeys env fallback rest

/-- Accessor `asBool` as the claim words it: inspect `boolean`, `string`, `number`,
then the first defined key. -/
def claimedAsBool (f : Flag) : Bool :=
  scanKeys f.target.value.value (fun p => (p.map jsBool).getD false)
    [("boolean", jsBool), ("string", jsBool), ("number", jsBool)]

/-- Accessor `asString` as the claim words it: inspect `boolean`, `string`,
`number`, then the first defined key. -/
def claimedAsString (ops : JSPrimOps) (f : Flag) : String :=
  scanKeys f.target.value.value
    (fun p =>
      match p with
      | some q => jsString ops q
      | none => "")
    [("boolean", jsString ops), ("string", jsString ops), ("number", jsString ops)]

/-- Accessor `asNumber` as the claim words it: inspect `boolean`, `string`,
`number`, then the first defined key (each key keeping its conversion). -/
def claimedAsNumber (ops : JSPrimOps) (f : Flag) : Option Rat :=
  scanKeys f.target.value.value
    (fun p =>
      match p with
      | some q => some ((ops.parseFloat (jsString ops q)).getD 0)
      | none => some 0)
    [("boolean", fun p => some (if jsBool p then 1 else 0)),
      ("string", fun p => some ((ops.parseFloat (jsString ops p)).getD 0)),
      ("number", jsNumber ops)]

/-- Accessor `getValue` as the claim words it: inspect `boolean`, `string`,
`number`, then the first defined key. -/
def claimedGetValue (f : Flag) : FlagValue :=
  scanKeys f.target.value.value (fun p => p.getD (.s ""))
    [("boolean", id), ("string", id), ("number", id)]

/-- An envelope holding both a `boolean` and a `string` value, on which the
claimed uniform inspection order diverges from the code. -/
def flagBoolString : Flag :=
  ⟨"1", FlagType.string, "k", "k",
    ⟨none, none, none, none, ⟨none, [("boolean", .b true), ("string", .s "x")]⟩⟩, []⟩

/-- C8 counterexample: on `{boolean: true, string: 'x'}` the accessors do
not all follow the claimed `boolean, string, number` preference order —
`asString` returns `'x'` (string first), not `'true'`, and `asNumber`
returns `0` (string branch), not `1`. -/
theorem accessor_order_counterexample :
    ¬ (Flag.asBool flagBoolString = claimedAsBool flagBoolString ∧
        Flag.asString testOps flagBoolString = claimedAsString testOps flagBoolString ∧
        Flag.asNumber testOps flagBoolString = claimedAsNumber testOps flagBoolString ∧
        Flag.getValue flagBoolString = claimedGetValue flagBoolString) := by
  intro h
  exact absurd h.2.1 (by decide)

/-- C8 amended: each accessor follows its own preference order — `asBool`
inspects `boolean`, `number`, `string`; `asString` inspects `string`,
`boolean`, `number`; `asNumber` inspects `number`, `string`, `boolean`;
`getValue` inspects `boolean`, `string`, `number` — each falling back on
the first defined key. -/
theorem accessor_order_amended (ops : JSPrimOps) (f : Flag) :
    Flag.asBool f
      = scanKeys f.target.value.value (fun p => (p.map jsBool).getD false)
          [("boolean", jsBool), ("number", jsBool), ("string", jsBool)] ∧
    Flag.asString ops f
      = scanKeys f.target.value.value
          (fun p =>
            match p with
            | some q => jsString ops q
            | none => "")
          [("string", jsString ops), ("boolean", jsString ops), ("number", jsString ops)] ∧
    Flag.asNumber ops f
      = scanKeys f.target.value.value
          (fun p =>
            match p with
            | some q => some ((ops.parseFloat (jsString ops q)).getD 0)
            | none => some 0)
          [("number", jsNumber ops),
            ("string", fun p => some ((ops.parseFloat (jsString ops p)).getD 0)),
            ("boolean", fun p => some (if jsBool p then 1 else 0))] ∧
    Flag.getValue f
      = scanKeys f.target.value.value (fun p => p.getD (.s ""))
          [("boolean", id), ("string", id), ("number", id)] := by
  refine ⟨rfl, rfl, rfl, rfl⟩

/-- Witness for the amended C8 at the two-key envelope: the string-first
order of `asString` yields `'x'`. -/
theorem accessor_order_amended_witness :
    Flag.asString testOps flagBoolString = "x" :=
  (accessor_order_amended testOps flagBoolString).2.1.trans (by decide)

/-- Witness for C6 at a concrete manager and failure. -/
theorem loadRulesFromApi_failure_and_success_witness :
    FlagManager.loadRulesFromApi testManager (fun _ => "doc")
        (.error "boom" : Except String RulesResponse)
      = ({ testManager with flags := some [] }, none, .error "boom") :=
  (@loadRulesFromApi_failure_and_success String testManager (fun _ => "doc")).1 "boom"

end Zenmanage
